import Mathlib

/-!
Verification of the periodic-function engine (`dp::periodic_function`,
`src/include/periodic_function/periodic_function.hpp`).

Durations (`time_type = std::chrono::steady_clock::duration`) are modelled as
`Int` tick counts.  The C++ integer operators `%` and `/` truncate toward
zero, so they are embedded as `Int.tmod` and `Int.tdiv`.
-/

namespace dp

namespace policies

/-- Embedding of `policies::schedule_next_missed_interval_policy::schedule`
(the default, skip-ahead missed-interval policy), instantiated at
`TimeType = Int`.  C++ `%` is `Int.tmod`. -/
def schedule_next_missed_interval_policy.schedule (callback_time interval : Int) : Int :=
  if callback_time ≥ interval then
    -- callback execution took at least an interval: skip to the next
    -- reachable aligned boundary (modulus covers multiple missed intervals)
    let append_time := Int.tmod callback_time interval
    if append_time = 0 then interval
    else append_time
  else
    -- take into account the callback duration for the next cycle
    interval - callback_time

/-- Embedding of `policies::invoke_immediately_missed_interval_policy::schedule`:
immediate dispatch, always a zero delay. -/
def invoke_immediately_missed_interval_policy.schedule (_callback_time _interval : Int) : Int :=
  (0 : Int)

end policies

end dp

open dp

/-- C1: for every elapsed time `e ≥ 0` and interval `i > 0`, the default
skip-ahead policy returns `i - e` when `e < i`; when `e ≥ i` (the boundary
`e = i` included, handled by the overrun branch) it returns `e % i`, except
that a zero remainder yields `i` instead of a zero-length delay. -/
theorem C1_skip_ahead_policy_schedule (e i : Int) (he : 0 ≤ e) (hi : 0 < i) :
    (e < i → policies.schedule_next_missed_interval_policy.schedule e i = i - e)
  ∧ (i ≤ e → e % i ≠ 0 → policies.schedule_next_missed_interval_policy.schedule e i = e % i)
  ∧ (i ≤ e → e % i = 0 → policies.schedule_next_missed_interval_policy.schedule e i = i)
  ∧ policies.schedule_next_missed_interval_policy.schedule i i = i := by
  have htmod : Int.tmod e i = e % i := Int.tmod_eq_emod he (le_of_lt hi)
  refine ⟨?_, ?_, ?_, ?_⟩
  · intro hlt
    simp only [policies.schedule_next_missed_interval_policy.schedule, ge_iff_le,
      not_le.mpr hlt, if_false]
  · intro hge hne
    simp only [policies.schedule_next_missed_interval_policy.schedule, ge_iff_le,
      hge, if_true, htmod, hne, if_false]
  · intro hge hz
    simp only [policies.schedule_next_missed_interval_policy.schedule, ge_iff_le,
      hge, if_true, htmod, hz, if_true]
  · simp only [policies.schedule_next_missed_interval_policy.schedule, ge_iff_le,
      le_refl, if_true, Int.tmod_self]

/-- Witness for C1 at the concrete inputs `e = 7`, `i = 3`. -/
theorem C1_skip_ahead_policy_schedule_witness :
    ((7 : Int) < 3 → policies.schedule_next_missed_interval_policy.schedule 7 3 = 3 - 7)
  ∧ ((3 : Int) ≤ 7 → (7 : Int) % 3 ≠ 0 →
      policies.schedule_next_missed_interval_policy.schedule 7 3 = 7 % 3)
  ∧ ((3 : Int) ≤ 7 → (7 : Int) % 3 = 0 →
      policies.schedule_next_missed_interval_policy.schedule 7 3 = 3)
  ∧ policies.schedule_next_missed_interval_policy.schedule 3 3 = 3 :=
  C1_skip_ahead_policy_schedule 7 3 (by decide) (by decide)

/-- C9: for every elapsed time `e ≥ 0` and interval `i > 0`, the delay `d`
returned by the default skip-ahead policy satisfies `0 < d ≤ i`: never zero or
negative, and never longer than one full interval. -/
theorem C9_skip_ahead_policy_delay_bounds (e i : Int) (he : 0 ≤ e) (hi : 0 < i) :
    0 < policies.schedule_next_missed_interval_policy.schedule e i
  ∧ policies.schedule_next_missed_interval_policy.schedule e i ≤ i := by
  have htmod : Int.tmod e i = e % i := Int.tmod_eq_emod he (le_of_lt hi)
  unfold policies.schedule_next_missed_interval_policy.schedule
  by_cases hge : e ≥ i
  · simp only [hge, if_true, htmod]
    by_cases hz : e % i = 0
    · simp only [hz, if_true]
      exact ⟨hi, le_refl i⟩
    · simp only [hz, if_false]
      refine ⟨?_, le_of_lt (Int.emod_lt_of_pos e hi)⟩
      exact lt_of_le_of_ne (Int.emod_nonneg e (ne_of_gt hi)) (Ne.symm hz)
  · simp only [hge, if_false]
    constructor
    · omega
    · omega

/-- Witness for C9 at the concrete inputs `e = 5`, `i = 2`. -/
theorem C9_skip_ahead_policy_delay_bounds_witness :
    0 < policies.schedule_next_missed_interval_policy.schedule 5 2
  ∧ policies.schedule_next_missed_interval_policy.schedule 5 2 ≤ 2 :=
  C9_skip_ahead_policy_delay_bounds 5 2 (by decide) (by decide)

namespace dp

/-- Embedding of the loop's duration measurement
`duration_cast<milliseconds>(callback_end - callback_start)` stored back into
`time_type`: the raw tick count `d` is truncated toward zero to a whole number
of milliseconds, where `ticks_per_ms` is the number of `time_type` ticks per
millisecond.  C++ `duration_cast` divides with truncation toward zero
(`Int.tdiv`) and the conversion back multiplies exactly. -/
def truncate_to_ms (ticks_per_ms d : Int) : Int :=
  (Int.tdiv d ticks_per_ms) * ticks_per_ms

/-- Embedding of one completed cycle's fire-time update in
`periodic_function::start_internal`: the measured duration is truncated to
whole milliseconds, the policy is consulted with it and the configured
interval, and the returned delay is added to the previous target fire time
`future_time` (never to a fresh clock reading).  `policy` is
`MissedIntervalPolicy::schedule`. -/
def cycle (policy : Int → Int → Int) (interval ticks_per_ms future_time raw_duration : Int) :
    Int :=
  let callback_duration := truncate_to_ms ticks_per_ms raw_duration
  let append_time := policy callback_duration interval
  future_time + append_time

/-- Embedding of the scheduler loop's fire-time evolution in
`start_internal`: `future_time` starts at `thread_start + interval_` and each
completed cycle (one raw measured duration per entry of `raw_durations`)
advances it by the policy's delay. -/
def run_loop (policy : Int → Int → Int) (interval ticks_per_ms thread_start : Int)
    (raw_durations : List Int) : Int :=
  raw_durations.foldl (cycle policy interval ticks_per_ms) (thread_start + interval)

/-- Result of one iteration of the `while (true)` body: either the loop
continues with an updated target fire time, or it broke out. -/
inductive LoopStep where
  | next (future_time : Int) : LoopStep
  | exited : LoopStep
deriving DecidableEq

/-- Embedding of `try { callback_(); } catch (...) {}`: the action's outcome
(normal return or a raised exception) is consumed and any exception is
discarded. -/
def invoke_suppressing (outcome : Except String Unit) : Unit :=
  match outcome with
  | Except.ok u => u
  | Except.error _ => ()

/-- Embedding of one iteration of the `while (true)` body in
`start_internal`: if the stop flag was observed during the wait the loop
breaks without invoking the action; otherwise the action is invoked inside
the exception-suppressing boundary, its duration is measured and truncated,
the policy is consulted, and the loop continues with the advanced fire
time. -/
def loop_iteration (policy : Int → Int → Int) (interval ticks_per_ms : Int)
    (stop : Bool) (future_time : Int) (outcome : Except String Unit) (raw_duration : Int) :
    LoopStep :=
  if stop then LoopStep.exited
  else
    let _u := invoke_suppressing outcome
    LoopStep.next (cycle policy interval ticks_per_ms future_time raw_duration)

/-- The fire-time evolution of a run of the loop in which each cycle carries
both the action's outcome and its raw measured duration, and stop is never
signalled.  A `LoopStep.exited` result would leave the fire time unchanged. -/
def run_loop_outcomes (policy : Int → Int → Int) (interval ticks_per_ms thread_start : Int)
    (cycles : List (Except String Unit × Int)) : Int :=
  cycles.foldl
    (fun ft c =>
      match loop_iteration policy interval ticks_per_ms false ft c.1 c.2 with
      | LoopStep.next ft1 => ft1
      | LoopStep.exited => ft)
    (thread_start + interval)

end dp

/-- Helper: folding `cycle` over a duration list adds the per-cycle policy
delays to the initial fire time. -/
theorem foldl_cycle_eq_sum (policy : Int → Int → Int) (interval ticks_per_ms : Int)
    (init : Int) (ds : List Int) :
    ds.foldl (cycle policy interval ticks_per_ms) init
      = init + (ds.map (fun d => policy (truncate_to_ms ticks_per_ms d) interval)).sum := by
  induction ds generalizing init with
  | nil => simp
  | cons d ds ih =>
    simp only [List.foldl_cons, List.map_cons, List.sum_cons, ih]
    simp [cycle, add_assoc]

/-- C2: each cycle's next target fire time is the previous target fire time
plus the policy's delay (no clock reading enters the update), so after `n`
completed cycles the target fire time equals the loop start time plus the
configured interval plus the sum of the `n` policy delays. -/
theorem C2_fire_time_anchored (policy : Int → Int → Int)
    (interval ticks_per_ms thread_start : Int) (ds : List Int) :
    (∀ ft d, cycle policy interval ticks_per_ms ft d
        = ft + policy (truncate_to_ms ticks_per_ms d) interval)
  ∧ run_loop policy interval ticks_per_ms thread_start ds
      = thread_start + interval
        + (ds.map (fun d => policy (truncate_to_ms ticks_per_ms d) interval)).sum := by
  refine ⟨fun ft d => rfl, ?_⟩
  exact foldl_cycle_eq_sum policy interval ticks_per_ms (thread_start + interval) ds

/-- C3: an action that raises an exception does not change the iteration's
result: the exception is swallowed at the loop boundary, the iteration still
continues with the policy-advanced fire time (it never exits), and a whole
run in which any subset of invocations raises produces exactly the fire-time
evolution of the corresponding exception-free run. -/
theorem C3_exceptions_swallowed (policy : Int → Int → Int)
    (interval ticks_per_ms thread_start ft d : Int) (err : String)
    (cs : List (Except String Unit × Int)) :
    loop_iteration policy interval ticks_per_ms false ft (Except.error err) d
      = loop_iteration policy interval ticks_per_ms false ft (Except.ok ()) d
  ∧ loop_iteration policy interval ticks_per_ms false ft (Except.error err) d
      = LoopStep.next (cycle policy interval ticks_per_ms ft d)
  ∧ run_loop_outcomes policy interval ticks_per_ms thread_start cs
      = run_loop policy interval ticks_per_ms thread_start (cs.map Prod.snd) := by
  refine ⟨rfl, rfl, ?_⟩
  unfold run_loop_outcomes run_loop
  rw [List.foldl_map]
  rfl

namespace dp

/-- Sequential state of one `dp::periodic_function` engine instance.
`runner_joinable` embeds `runner_.joinable()` (a thread object is associated
with `runner_`); `stop_` embeds the stop flag; `interval_` and `callback_`
embed the configured interval and the owned action (`A` is the callback's
type, tracked by value so moves are observable).  `live_loops` is a ghost
counter of scheduler-loop execution contexts this engine has spawned and not
yet joined: spawning a thread increments it, `runner_.join()` decrements
it. -/
structure periodic_function (A : Type) where
  live_loops : Nat
  runner_joinable : Bool
  stop_ : Bool
  interval_ : Int
  callback_ : A
deriving DecidableEq

/-- Embedding of the constructor
`periodic_function(Callback &&callback, const time_type &interval) noexcept`:
stores the interval and the moved-in callback; no execution context exists
yet and the stop flag is clear.  The constructor body performs no validation
of `interval`. -/
def periodic_function.construct (callback : A) (interval : Int) : periodic_function A :=
  { live_loops := 0
    runner_joinable := false
    stop_ := false
    interval_ := interval
    callback_ := callback }

/-- Embedding of `is_running()`: `return runner_.joinable();`. -/
def periodic_function.is_running (e : periodic_function A) : Bool :=
  e.runner_joinable

/-- Embedding of `stop()`: set `stop_` under the lock, notify the condition
variable, join the runner if it is joinable (waiting for the execution
context to fully exit), then reset `stop_` under the lock. -/
def periodic_function.stop (e : periodic_function A) : periodic_function A :=
  let e1 := { e with stop_ := true }
  let e2 :=
    if e1.runner_joinable then
      { e1 with live_loops := e1.live_loops - 1, runner_joinable := false }
    else e1
  { e2 with stop_ := false }

/-- Embedding of `runner_ = std::thread([this]() { ... });` in
`start_internal`: a fresh scheduler-loop execution context is spawned and the
runner becomes joinable. -/
def periodic_function.spawn (e : periodic_function A) : periodic_function A :=
  { e with live_loops := e.live_loops + 1, runner_joinable := true }

/-- Embedding of `start_internal()`: `if (is_running()) stop();` followed by
spawning the fresh scheduler-loop thread. -/
def periodic_function.start_internal (e : periodic_function A) : periodic_function A :=
  let e1 := if e.is_running then e.stop else e
  e1.spawn

/-- Embedding of `start()`: `start_internal();`. -/
def periodic_function.start (e : periodic_function A) : periodic_function A :=
  e.start_internal

/-- Embedding of the destructor `~periodic_function() { stop(); }`, giving the
engine's state when the instance is released. -/
def periodic_function.destruct (e : periodic_function A) : periodic_function A :=
  e.stop

/-- Embedding of the move constructor: the destination is member-initialised
with the source's interval and moved callback (no runner, clear stop flag),
then the body runs `if (other.is_running()) { other.stop(); start(); }`.
Returns (destination, source after the move). -/
def periodic_function.move_construct (other : periodic_function A) :
    periodic_function A × periodic_function A :=
  let dest : periodic_function A :=
    { live_loops := 0
      runner_joinable := false
      stop_ := false
      interval_ := other.interval_
      callback_ := other.callback_ }
  if other.is_running then
    let other1 := other.stop
    let dest1 := dest.start
    (dest1, other1)
  else
    (dest, other)

/-- Embedding of the move assignment operator's `this != &other` branch
(self-assignment is a no-op): `dst` takes `other`'s interval and moved
callback, then `if (other.is_running()) { other.stop(); start(); }`.  `dst`'s
own runner is not touched unless `start()` runs.  Returns (destination,
source after the move). -/
def periodic_function.move_assign (dst other : periodic_function A) :
    periodic_function A × periodic_function A :=
  let dst1 := { dst with interval_ := other.interval_, callback_ := other.callback_ }
  if other.is_running then
    let other1 := other.stop
    let dst2 := dst1.start
    (dst2, other1)
  else
    (dst1, other)

/-- States reachable between lifecycle calls: the ghost live-loop counter is
1 exactly when the runner is joinable (a spawned context has not been
joined), and the stop flag is at rest (the constructor clears it and `stop()`
resets it before returning). -/
def periodic_function.well_formed (e : periodic_function A) : Prop :=
  e.live_loops = (if e.runner_joinable then 1 else 0) ∧ e.stop_ = false

end dp

/-- C4: `start()` on a running engine performs the full `stop()` (signal and
join) before spawning the fresh scheduler-loop thread; construction spawns no
context, `start` and `stop` preserve well-formedness, and every well-formed
state has at most one live scheduler-loop execution context. -/
theorem C4_start_stops_before_spawning (e : periodic_function Nat) (hwf : e.well_formed) :
    (e.is_running = true → e.start = e.stop.spawn)
  ∧ e.start.well_formed
  ∧ e.start.live_loops = 1
  ∧ e.stop.well_formed
  ∧ (∀ (a : Nat) (i : Int), (periodic_function.construct a i).well_formed)
  ∧ (∀ f : periodic_function Nat, f.well_formed → f.live_loops ≤ 1) := by
  obtain ⟨hl, hs⟩ := hwf
  rcases e with ⟨l, r, s, iv, c⟩
  refine ⟨?_, ?_, ?_, ?_, ?_, ?_⟩
  · intro hr
    simp only [periodic_function.is_running] at hr
    simp [periodic_function.start, periodic_function.start_internal,
      periodic_function.is_running, hr]
  · cases r <;>
      simp_all [periodic_function.start, periodic_function.start_internal,
        periodic_function.is_running, periodic_function.stop, periodic_function.spawn,
        periodic_function.well_formed]
  · cases r <;>
      simp_all [periodic_function.start, periodic_function.start_internal,
        periodic_function.is_running, periodic_function.stop, periodic_function.spawn]
  · cases r <;>
      simp_all [periodic_function.stop, periodic_function.well_formed]
  · intro a i
    simp [periodic_function.construct, periodic_function.well_formed]
  · intro f hf
    rcases f with ⟨l1, r1, s1, iv1, c1⟩
    obtain ⟨hl1, _⟩ := hf
    cases r1 <;> simp_all

/-- Witness for C4 at a concrete running engine. -/
theorem C4_start_stops_before_spawning_witness :
    let e : periodic_function Nat :=
      { live_loops := 1, runner_joinable := true, stop_ := false, interval_ := 9, callback_ := 4 }
    (e.is_running = true → e.start = e.stop.spawn)
  ∧ e.start.well_formed
  ∧ e.start.live_loops = 1
  ∧ e.stop.well_formed
  ∧ (∀ (a : Nat) (i : Int), (periodic_function.construct a i).well_formed)
  ∧ (∀ f : periodic_function Nat, f.well_formed → f.live_loops ≤ 1) :=
  C4_start_stops_before_spawning
    { live_loops := 1, runner_joinable := true, stop_ := false, interval_ := 9, callback_ := 4 }
    (by constructor <;> rfl)

/-- C5: `stop()` on an idle well-formed engine is a no-op; after any `stop()`
the stop flag is cleared, `is_running()` is false, every spawned context has
been joined, and a subsequent `start()` takes the fresh-start path (it spawns
without stopping anything). -/
theorem C5_stop_idempotent (e : periodic_function Nat) (hwf : e.well_formed) :
    (e.is_running = false → e.stop = e)
  ∧ e.stop.stop_ = false
  ∧ e.stop.is_running = false
  ∧ e.stop.live_loops = 0
  ∧ e.stop.stop = e.stop
  ∧ e.stop.start = e.stop.spawn := by
  obtain ⟨hl, hs⟩ := hwf
  rcases e with ⟨l, r, s, iv, c⟩
  cases r <;>
    simp_all [periodic_function.stop, periodic_function.is_running,
      periodic_function.start, periodic_function.start_internal, periodic_function.spawn]

/-- Witness for C5 at a concrete idle engine. -/
theorem C5_stop_idempotent_witness :
    let e : periodic_function Nat :=
      { live_loops := 0, runner_joinable := false, stop_ := false, interval_ := 9, callback_ := 4 }
    (e.is_running = false → e.stop = e)
  ∧ e.stop.stop_ = false
  ∧ e.stop.is_running = false
  ∧ e.stop.live_loops = 0
  ∧ e.stop.stop = e.stop
  ∧ e.stop.start = e.stop.spawn :=
  C5_stop_idempotent
    { live_loops := 0, runner_joinable := false, stop_ := false, interval_ := 9, callback_ := 4 }
    (by constructor <;> rfl)

/-- C6: the destructor performs exactly the full `stop()` (signal, join,
reset), so when the instance is released no live scheduler-loop execution
context remains and no further invocation of the action can start. -/
theorem C6_destructor_performs_stop (e : periodic_function Nat) (hwf : e.well_formed) :
    e.destruct = e.stop
  ∧ e.destruct.live_loops = 0
  ∧ e.destruct.is_running = false := by
  obtain ⟨hl, hs⟩ := hwf
  rcases e with ⟨l, r, s, iv, c⟩
  cases r <;>
    simp_all [periodic_function.destruct, periodic_function.stop, periodic_function.is_running]

/-- Witness for C6 at a concrete running engine. -/
theorem C6_destructor_performs_stop_witness :
    let e : periodic_function Nat :=
      { live_loops := 1, runner_joinable := true, stop_ := false, interval_ := 2, callback_ := 3 }
    e.destruct = e.stop
  ∧ e.destruct.live_loops = 0
  ∧ e.destruct.is_running = false :=
  C6_destructor_performs_stop
    { live_loops := 1, runner_joinable := true, stop_ := false, interval_ := 2, callback_ := 3 }
    (by constructor <;> rfl)

/-- A well-formed engine whose scheduler loop is live, used as a move-assignment
destination. -/
def running_destination : periodic_function Nat :=
  { live_loops := 1, runner_joinable := true, stop_ := false, interval_ := 5, callback_ := 0 }

/-- A well-formed idle engine, used as a move source. -/
def idle_source : periodic_function Nat :=
  { live_loops := 0, runner_joinable := false, stop_ := false, interval_ := 7, callback_ := 1 }

/-- C7 counterexample: move-assigning an idle source onto a running destination
leaves the destination running (its prior loop is untouched in this branch),
refuting "if the source was idle, the destination ends idle". -/
theorem C7_counterexample :
    idle_source.is_running = false
  ∧ (running_destination.move_assign idle_source).1.is_running = true := by
  constructor <;> rfl

/-- C7 amended: relocation transfers interval and action and leaves the
source not running; move construction gives the destination exactly the
source's run state; but move assignment leaves the destination running
exactly when the source was running or the destination already was — an idle
source does not force a running destination idle. -/
theorem C7_move_preserves_run_state (src dst : periodic_function Nat) :
    (periodic_function.move_construct src).1.is_running = src.is_running
  ∧ (periodic_function.move_construct src).2.is_running = false
  ∧ (periodic_function.move_construct src).1.interval_ = src.interval_
  ∧ (periodic_function.move_construct src).1.callback_ = src.callback_
  ∧ (dst.move_assign src).1.is_running = (src.is_running || dst.is_running)
  ∧ (dst.move_assign src).2.is_running = false
  ∧ (dst.move_assign src).1.interval_ = src.interval_
  ∧ (dst.move_assign src).1.callback_ = src.callback_ := by
  rcases src with ⟨ls, rs, ss, ivs, cs⟩
  rcases dst with ⟨ld, rd, sd, ivd, cd⟩
  cases rs <;> cases rd <;>
    simp [periodic_function.move_construct, periodic_function.move_assign,
      periodic_function.is_running, periodic_function.stop, periodic_function.start,
      periodic_function.start_internal, periodic_function.spawn]

/-- C8 counterexample: the constructor accepts a zero interval — construction
succeeds and the stored interval is 0, so not every successfully constructed
engine has a strictly positive interval. -/
theorem C8_counterexample :
    ¬ (0 < (periodic_function.construct (0 : Nat) (0 : Int)).interval_) := by decide

/-- C8 amended: construction performs no interval validation — any interval,
zero and negative included, is accepted unchanged, with no execution context
spawned; strict positivity is an unenforced caller precondition, so nothing
guarantees the policy is only consulted with positive intervals. -/
theorem C8_no_interval_validation (a : Nat) (i : Int) :
    (periodic_function.construct a i).interval_ = i
  ∧ (periodic_function.construct a i).callback_ = a
  ∧ (periodic_function.construct a i).is_running = false
  ∧ (periodic_function.construct a i).stop_ = false := by
  exact ⟨rfl, rfl, rfl, rfl⟩

/-- C10: the loop consults the policy with the measured duration truncated to
whole milliseconds; an invocation that completes in strictly less than one
millisecond therefore yields elapsed 0, and under the default skip-ahead
policy the cycle's applied delay is exactly the full configured interval. -/
theorem C10_submillisecond_duration_truncated (ticks_per_ms d interval ft : Int)
    (hR : 0 < ticks_per_ms) (hd : 0 ≤ d) (hlt : d < ticks_per_ms) (hi : 0 < interval) :
    (∀ (policy : Int → Int → Int) (ft2 d2 : Int),
      cycle policy interval ticks_per_ms ft2 d2
        = ft2 + policy (truncate_to_ms ticks_per_ms d2) interval)
  ∧ truncate_to_ms ticks_per_ms d = 0
  ∧ cycle policies.schedule_next_missed_interval_policy.schedule interval ticks_per_ms ft d
      = ft + interval := by
  have htrunc : truncate_to_ms ticks_per_ms d = 0 := by
    unfold truncate_to_ms
    rw [Int.tdiv_eq_ediv hd (le_of_lt hR), Int.ediv_eq_zero_of_lt hd hlt, zero_mul]
  refine ⟨fun policy ft2 d2 => rfl, htrunc, ?_⟩
  show ft + policies.schedule_next_missed_interval_policy.schedule
      (truncate_to_ms ticks_per_ms d) interval = ft + interval
  rw [htrunc]
  unfold policies.schedule_next_missed_interval_policy.schedule
  simp only [ge_iff_le, not_le.mpr hi, if_false, sub_zero]

/-- Witness for C10 with nanosecond ticks (`ticks_per_ms = 1000000`), a 5 ns
duration, interval 7 and fire time 0. -/
theorem C10_submillisecond_duration_truncated_witness :
    (∀ (policy : Int → Int → Int) (ft2 d2 : Int),
      cycle policy 7 1000000 ft2 d2 = ft2 + policy (truncate_to_ms 1000000 d2) 7)
  ∧ truncate_to_ms 1000000 5 = 0
  ∧ cycle policies.schedule_next_missed_interval_policy.schedule 7 1000000 0 5 = 0 + 7 :=
  C10_submillisecond_duration_truncated 1000000 5 7 0
    (by decide) (by decide) (by decide) (by decide)
